import Mathlib

/-!
Verification of the pyFlyEye image-inventory notebook.

The embedding below translates the core of the notebook (the functions
read_metadata and process_tif, the exclusion list, and the batch loop over
the bucket listing) into Lean. Python strings are modelled through their
character lists so that all operations compute inside the kernel: strSplit
models str.split with a one-character separator, strEndsWith models
str.endswith, strContains models the substring test (name in key), pyInt
models int(...) on a plain decimal literal (whitespace stripping of the
Python builtin is omitted; no claim depends on it), and pyBool models
bool(...) on a string, which is true exactly when the string is non-empty.
Python dictionaries are modelled as association lists with assignment
dinsert (replace the binding in place when the key is present, append
otherwise) and lookup dlookup. Python exceptions are modelled with Except:
an exception raised inside the loop body propagates, which the Except
monad mirrors by short-circuiting the fold.
-/

/-- splitList sep l splits the character list l at every occurrence of sep,
exactly as the Python expression s.split(sep) does for a one-character
separator: the result always has one more piece than there are separators,
so a trailing separator yields a trailing empty piece. -/
def splitList (sep : Char) : List Char → List (List Char)
  | [] => [[]]
  | c :: t =>
    let r := splitList sep t
    if c = sep then [] :: r
    else
      match r with
      | [] => [[c]]
      | h :: t2 => (c :: h) :: t2

/-- strSplit models the Python expression s.split(sep) for a
one-character separator. -/
def strSplit (s : String) (sep : Char) : List String :=
  (splitList sep s.toList).map String.mk

/-- strEndsWith models the Python expression s.endswith(suffix). -/
def strEndsWith (s suffix : String) : Bool :=
  suffix.toList.isSuffixOf s.toList

/-- listContainsAux needle hay decides whether needle occurs as a
contiguous sublist of hay. -/
def listContainsAux (needle : List Char) : List Char → Bool
  | [] => needle.isEmpty
  | c :: t => needle.isPrefixOf (c :: t) || listContainsAux needle t

/-- strContains models the Python expression needle in hay on strings. -/
def strContains (hay needle : String) : Bool :=
  listContainsAux needle.toList hay.toList

/-- natOfDigits reads a non-empty all-digit character list as a natural
number. -/
def natOfDigits (l : List Char) : Option Nat :=
  if l = [] then none
  else if l.all Char.isDigit then
    some (l.foldl (fun acc c => acc * 10 + (c.toNat - 48)) 0)
  else none

/-- pyInt models the Python builtin int(...) applied to a string: an
optional sign followed by decimal digits parses to an integer, anything
else raises (returns none here). -/
def pyInt (s : String) : Option Int :=
  match s.toList with
  | '-' :: t => (natOfDigits t).map (fun n => -(n : Int))
  | '+' :: t => (natOfDigits t).map (fun n => (n : Int))
  | l => (natOfDigits l).map (fun n => (n : Int))

/-- pyBool models the Python builtin bool(...) applied to a string: every
non-empty string is truthy, only the empty string is falsy. -/
def pyBool (s : String) : Bool :=
  !(s.toList.isEmpty)

/-- Value is the type of values stored in the metadata dictionary built by
read_metadata: strings, integers (from int(...)), floats (modelled as
exact rationals), and booleans (from bool(...)). -/
inductive Value
  | str (s : String)
  | int (n : Int)
  | float (q : ℚ)
  | bool (b : Bool)
deriving DecidableEq, Repr

/-- TagValue is the raw value carried by one container tag: a byte string
(the image_description tag decodes it as ASCII; the decoded text is the
model), a plain integer, or a sequence of per-strip byte counts (the
strip_byte_counts tag of tifffile yields such a sequence). -/
inductive TagValue
  | bytes (s : String)
  | num (n : Int)
  | counts (l : List Nat)
deriving DecidableEq, Repr

/-- Tag is one named metadata field of a container page. -/
structure Tag where
  name : String
  value : TagValue
deriving DecidableEq, Repr

/-- pyStr models the Python builtin str(...) on a tag value, as used by
the assignment d[tag.name] = str(tag.value). The textual format of
sequence values is abstracted; no claim depends on it. -/
def pyStr : TagValue → String
  | TagValue.bytes s => s
  | TagValue.num n => toString n
  | TagValue.counts l => toString l

/-- PyError models the exceptions the notebook code can raise while
processing one image, under the names the specification gives them. -/
inductive PyError
  | malformedDescriptor
  | typeCoercion
  | encodingError
  | indexError
deriving DecidableEq, Repr

/-- Record models the Python dictionary d built by read_metadata: an
association list from tag names to values, in insertion order. -/
abbrev Record : Type := List (String × Value)

/-- dinsert models Python dictionary assignment d[k] = v: when k is
already bound its binding is replaced in place, otherwise the new binding
is appended at the end. -/
def dinsert {α : Type} (d : List (String × α)) (k : String) (v : α) :
    List (String × α) :=
  match d with
  | [] => [(k, v)]
  | (k', v') :: t => if k' = k then (k, v) :: t else (k', v') :: dinsert t k v

/-- dlookup models Python dictionary lookup d[k], returning none when the
key is absent. -/
def dlookup {α : Type} (d : List (String × α)) (k : String) : Option α :=
  match d with
  | [] => none
  | (k', v) :: t => if k' = k then some v else dlookup t k

/-- splitEq models the unpacking assignment key, value = item.split('=').
The unpacking succeeds only when the split yields exactly two pieces, that
is when the line holds exactly one equals sign; otherwise Python raises a
ValueError, which the specification names MalformedDescriptorError. -/
def splitEq (item : String) : Except PyError (String × String) :=
  match strSplit item '=' with
  | [k, v] => Except.ok (k, v)
  | _ => Except.error PyError.malformedDescriptor

/-- processItemKV is the type-coercion step of read_metadata applied to
one already-split key and value from the descriptor: images, channels and
slices parse with int(...), hyperstack coerces with bool(...), every
other key keeps the value string unmodified. -/
def processItemKV (d : Record) (key value : String) : Except PyError Record :=
  if key ∈ (["images", "channels", "slices"] : List String) then
    match pyInt value with
    | some n => Except.ok (dinsert d key (Value.int n))
    | none => Except.error PyError.typeCoercion
  else if key = "hyperstack" then
    Except.ok (dinsert d key (Value.bool (pyBool value)))
  else
    Except.ok (dinsert d key (Value.str value))

/-- processItem handles one retained line of the descriptor: split it at
the equals sign, then coerce and record the pair. -/
def processItem (d : Record) (item : String) : Except PyError Record := do
  let kv ← splitEq item
  processItemKV d kv.1 kv.2

/-- parse_image_description models the inner loop of read_metadata over
the image_description tag: split the decoded text on newline, drop the
final piece unconditionally, and process every remaining line in order. -/
def parse_image_description (d : Record) (s : String) : Except PyError Record :=
  ((strSplit s '\n').dropLast).foldlM processItem d

/-- processTag models the body of the tag loop of read_metadata: the
image_description tag routes through the descriptor sub-parser; the
strip_byte_counts tag stores the first per-strip byte count divided by
the decimal billion under the key sizeInGB; every other tag stores its
display string under its own name. A strip_byte_counts value that does
not support indexing at position zero raises, as tag.value[0] would. -/
def processTag (d : Record) (t : Tag) : Except PyError Record :=
  if t.name = "image_description" then
    match t.value with
    | TagValue.bytes s => parse_image_description d s
    | _ => Except.error PyError.encodingError
  else if t.name = "strip_byte_counts" then
    match t.value with
    | TagValue.counts (b :: _) =>
        Except.ok (dinsert d "sizeInGB" (Value.float ((b : ℚ) / 1000000000)))
    | _ => Except.error PyError.indexError
  else
    Except.ok (dinsert d t.name (Value.str (pyStr t.value)))

/-- read_metadata models the function of the same name in the notebook:
fold the tag-processing step over every tag of every page of the already
opened container, starting from the empty dictionary. The argument is the
parsed page and tag structure of the file. -/
def read_metadata (pages : List (List Tag)) : Except PyError Record :=
  pages.foldlM (fun d page => page.foldlM processTag d) []

/-- reducedKeys is the fixed list of the six fields projected into the
one-row data frame by process_tif. -/
def reducedKeys : List String :=
  ["image_width", "image_length", "channels", "slices", "hyperstack", "sizeInGB"]

/-- Row models the small dictionary small_d built by process_tif: the six
fixed keys in order, each bound to the value found in the full record or
to the explicit absent marker None. -/
abbrev Row : Type := List (String × Option Value)

/-- process_tif_row models the small_d loop of process_tif: for every one
of the six fixed keys, bind the value from the full record when present,
else bind the absent marker. -/
def process_tif_row (d : Record) : Row :=
  reducedKeys.foldl (fun sd k => dinsert sd k (dlookup d k)) []

/-- metadata_filename models the archive entry name built by process_tif:
the last slash-separated segment of the label, cut at the first dot, with
the suffix appended, as in label.split('/')[-1].split('.')[0]. -/
def metadata_filename (label : String) : String :=
  ((strSplit ((strSplit label '/').getLastD "") '.').headD "") ++ "_metadata.txt"

/-- ProcessedTif is the observable outcome of process_tif: the archive
entry written (its name and the full record it serializes) and the
reduced one-row table content. -/
structure ProcessedTif where
  archiveName : String
  archived : Record
  row : Row
deriving DecidableEq

/-- process_tif models the function of the same name in the notebook:
read the metadata, dump the full record to the archive entry named from
the label, then project the six reduced fields. -/
def process_tif (pages : List (List Tag)) (label : String) :
    Except PyError ProcessedTif := do
  let d ← read_metadata pages
  pure ⟨metadata_filename label, d, process_tif_row d⟩

/-- exclude_list is the exclusion list of the notebook: keys of tiff
sequences, excluded by substring match. -/
def exclude_list : List String :=
  ["Lepto_fovea", "Lepto_head_lowres", "Holco_Scan53_fly1"]

/-- excludedKey models the exclusion test of the batch loop: the key is
excluded when any name of exclude_list occurs inside it. -/
def excludedKey (key : String) : Bool :=
  exclude_list.any (fun name => strContains key name)

/-- BatchState is the observable state the batch loop threads along: the
two in-memory accumulation lists of the notebook, the persisted inventory
rows, the archive entries written, and the download attempts made. -/
structure BatchState where
  tif_files : List String
  tif_files_done : List String
  inventory : List (String × Row)
  archive : List (String × Record)
  downloads : List String
deriving DecidableEq

/-- initialState is the state the notebook initializes before the loop:
both accumulation lists empty, nothing downloaded; inventory and archive
also empty for a first run. -/
def initialState : BatchState := ⟨[], [], [], [], []⟩

/-- processKey models the body of the batch loop for one candidate key:
skip excluded keys, skip keys without the tif suffix, record the key in
tif_files (the notebook appends it before the done test, so it appears in
both branches), skip keys already in tif_files_done, otherwise download
the object, process it, append the archive entry and the inventory row,
and mark the key done. The loop body has no exception handler, so an
error raised while processing propagates. -/
def processKey (fetch : String → List (List Tag)) (st : BatchState)
    (key : String) : Except PyError BatchState :=
  if excludedKey key then pure st
  else if strEndsWith key "tif" then
    if key ∈ st.tif_files_done then
      pure { st with tif_files := st.tif_files ++ [key] }
    else
      (process_tif (fetch key) key).bind fun r =>
        pure { st with
          tif_files := st.tif_files ++ [key],
          downloads := st.downloads ++ [key],
          archive := st.archive ++ [(r.archiveName, r.archived)],
          inventory := st.inventory ++ [(key, r.row)],
          tif_files_done := st.tif_files_done ++ [key] }
  else pure st

/-- run_batch models the batch loop: fold the per-key step over the
listing in order; an unhandled error aborts the remaining listing. -/
def run_batch (fetch : String → List (List Tag)) (keys : List String)
    (st : BatchState) : Except PyError BatchState :=
  keys.foldlM (processKey fetch) st

/-- freshRun models starting the batch driver anew over a listing while
the inventory and archive persist from an earlier run: the notebook
re-initializes tif_files and tif_files_done to empty in-memory lists. -/
def freshRun (fetch : String → List (List Tag)) (keys : List String)
    (inv : List (String × Row)) (arch : List (String × Record)) :
    Except PyError BatchState :=
  run_batch fetch keys ⟨[], [], inv, arch, []⟩

/-- fetchEmptyTif is a bucket in which every key holds a container with
one page and no tags. -/
def fetchEmptyTif : String → List (List Tag) := fun _ => [[]]

/-- rowEmpty is the reduced row of an empty metadata record: all six
fields absent. -/
def rowEmpty : Row := process_tif_row []

/-- dlookup_dinsert_self states that after the dictionary assignment
d[k] = v the lookup d[k] yields v. -/
theorem dlookup_dinsert_self {α : Type} (d : List (String × α)) (k : String)
    (v : α) : dlookup (dinsert d k v) k = some v := by
  induction d with
  | nil => simp [dinsert, dlookup]
  | cons p t ih =>
    by_cases h : p.1 = k
    · simp [dinsert, dlookup, h]
    · simp [dinsert, dlookup, h, ih]

/-- C3: for every descriptor line with key hyperstack, any non-empty value
string coerces to boolean true, and in particular the literal value
string False coerces to true. -/
theorem C3_hyperstack_truthy (d : Record) (value : String) (h : value ≠ "") :
    processItemKV d "hyperstack" value
      = Except.ok (dinsert d "hyperstack" (Value.bool true)) ∧
    processItem d "hyperstack=False"
      = Except.ok (dinsert d "hyperstack" (Value.bool true)) := by
  constructor
  · have hb : pyBool value = true := by
      cases value with
      | mk data =>
        cases data with
        | nil => exact absurd rfl h
        | cons c t => rfl
    show Except.ok (dinsert d "hyperstack" (Value.bool (pyBool value)))
      = Except.ok (dinsert d "hyperstack" (Value.bool true))
    rw [hb]
  · rfl

/-- C3 witness: the coercion evaluated at the literal value False. -/
theorem C3_witness :
    "False" ≠ "" ∧
    processItemKV [] "hyperstack" "False"
      = Except.ok [("hyperstack", Value.bool true)] :=
  ⟨by decide, (C3_hyperstack_truthy [] "False" (by decide)).1⟩

/-- C4: for every record, the projection into the reduced row is total:
it always yields exactly the six fixed fields in order, each bound to the
looked-up value or to the explicit absent marker, and it cannot fail. -/
theorem C4_reduced_row_total (d : Record) :
    process_tif_row d =
      [("image_width", dlookup d "image_width"),
       ("image_length", dlookup d "image_length"),
       ("channels", dlookup d "channels"),
       ("slices", dlookup d "slices"),
       ("hyperstack", dlookup d "hyperstack"),
       ("sizeInGB", dlookup d "sizeInGB")] ∧
    (process_tif_row d).length = 6 ∧
    (process_tif_row d).map Prod.fst = reducedKeys :=
  ⟨rfl, rfl, rfl⟩

/-- C5: the descriptor value images=3, channels=2, slices=10 followed by
a trailing newline expands to the three fields with integer values and
the trailing empty piece is dropped; the final piece is dropped even when
it holds data; and every value of the keys images, channels and slices
that int(...) accepts is stored as an integer. -/
theorem C5_descriptor_expansion :
    parse_image_description [] "images=3\nchannels=2\nslices=10\n"
      = Except.ok
          [("images", Value.int 3), ("channels", Value.int 2),
           ("slices", Value.int 10)] ∧
    parse_image_description [] "images=3\nchannels=2"
      = Except.ok [("images", Value.int 3)] ∧
    ∀ (d : Record) (key v : String) (n : Int),
      key ∈ (["images", "channels", "slices"] : List String) →
      pyInt v = some n →
      processItemKV d key v = Except.ok (dinsert d key (Value.int n)) := by
  refine ⟨rfl, rfl, ?_⟩
  intro d key v n hkey hv
  simp only [processItemKV, if_pos hkey, hv]

/-- C5 witness: the integer coercion evaluated at the key channels and
the value 41. -/
theorem C5_witness :
    "channels" ∈ (["images", "channels", "slices"] : List String) ∧
    pyInt "41" = some 41 ∧
    processItemKV [] "channels" "41"
      = Except.ok [("channels", Value.int 41)] :=
  ⟨by decide, rfl,
    C5_descriptor_expansion.2.2 [] "channels" "41" 41 (by decide) rfl⟩

/-- C6: a strip_byte_counts tag stores, under the key sizeInGB, the first
raw byte count divided by the decimal billion; at 1159201000 bytes the
stored value is exactly 1.159201. -/
theorem C6_sizeInGB_decimal_divisor (d : Record) (b : Nat) (rest : List Nat) :
    processTag d ⟨"strip_byte_counts", TagValue.counts (b :: rest)⟩
      = Except.ok (dinsert d "sizeInGB" (Value.float ((b : ℚ) / 1000000000))) ∧
    processTag [] ⟨"strip_byte_counts", TagValue.counts [1159201000]⟩
      = Except.ok [("sizeInGB", Value.float 1.159201)] := by
  constructor
  · rfl
  · have h : ((1159201000 : Nat) : ℚ) / 1000000000 = (1.159201 : ℚ) := by
      norm_num
    show Except.ok ([("sizeInGB", Value.float (((1159201000 : Nat) : ℚ) / 1000000000))])
      = Except.ok [("sizeInGB", Value.float 1.159201)]
    rw [h]

/-- C10: when the strip-byte-count tag value is a sequence of per-strip
counts, sizeInGB is computed from the first element only; with the
two-strip counts 3 and 5 the stored value is 3 divided by the decimal
billion, which differs from the sum 8 divided by the decimal billion. -/
theorem C10_first_strip_only (d : Record) (b1 b2 : Nat) (rest : List Nat) :
    processTag d ⟨"strip_byte_counts", TagValue.counts (b1 :: b2 :: rest)⟩
      = Except.ok (dinsert d "sizeInGB" (Value.float ((b1 : ℚ) / 1000000000))) ∧
    processTag [] ⟨"strip_byte_counts", TagValue.counts [3, 5]⟩
      = Except.ok [("sizeInGB", Value.float ((3 : ℚ) / 1000000000))] ∧
    Value.float ((3 : ℚ) / 1000000000) ≠ Value.float (((3 + 5 : Nat) : ℚ) / 1000000000) := by
  refine ⟨rfl, rfl, ?_⟩
  intro h
  have h2 : ((3 : ℚ) / 1000000000) = (((3 + 5 : Nat) : ℚ) / 1000000000) :=
    Value.float.inj h
  norm_num at h2

/-- processKey_done states that a key already in the in-memory done list
changes nothing but the tif_files accumulation list: no download, no
archive entry, no inventory row, no new done mark. -/
theorem processKey_done (fetch : String → List (List Tag)) (st : BatchState)
    (key : String) (h : key ∈ st.tif_files_done) :
    ∃ tf, processKey fetch st key = Except.ok { st with tif_files := tf } := by
  unfold processKey
  by_cases h1 : excludedKey key = true
  · exact ⟨st.tif_files, by rw [if_pos h1]; rfl⟩
  · rw [if_neg h1]
    by_cases h2 : strEndsWith key "tif" = true
    · rw [if_pos h2]
      exact ⟨st.tif_files ++ [key], by rw [if_pos h]; rfl⟩
    · rw [if_neg h2]
      exact ⟨st.tif_files, rfl⟩

/-- C1 counterexample: the done list is not reconstructed from the
persisted inventory. With a listing of one tif key whose label already
has a persisted inventory row and archive entry from an earlier run, a
fresh run downloads the object again and appends a second row and a
second archive entry for the same label. -/
theorem C1_rerun_reprocesses_counterexample :
    freshRun fetchEmptyTif ["a.tif"]
        [("a.tif", rowEmpty)] [("a_metadata.txt", [])]
      = Except.ok
          ⟨["a.tif"], ["a.tif"],
           [("a.tif", rowEmpty), ("a.tif", rowEmpty)],
           [("a_metadata.txt", []), ("a_metadata.txt", [])],
           ["a.tif"]⟩ := rfl

/-- C1 amended: within one run, every key of the listing that is already
in the in-memory done list is skipped: the batch succeeds and performs no
download, no parse, no archive write and no inventory append, and marks
nothing new done. -/
theorem C1_amended_done_labels_skipped (fetch : String → List (List Tag))
    (keys : List String) (st : BatchState)
    (h : ∀ k ∈ keys, k ∈ st.tif_files_done) :
    ∃ st', run_batch fetch keys st = Except.ok st' ∧
      st'.tif_files_done = st.tif_files_done ∧
      st'.inventory = st.inventory ∧
      st'.archive = st.archive ∧
      st'.downloads = st.downloads := by
  induction keys generalizing st with
  | nil => exact ⟨st, rfl, rfl, rfl, rfl, rfl⟩
  | cons k rest ih =>
    have hk : k ∈ st.tif_files_done := h k (List.mem_cons_self k rest)
    obtain ⟨tf, htf⟩ := processKey_done fetch st k hk
    have hrest : ∀ k' ∈ rest,
        k' ∈ ({ st with tif_files := tf } : BatchState).tif_files_done := by
      intro k' hk'
      exact h k' (List.mem_cons_of_mem k hk')
    obtain ⟨st', h1, h2, h3, h4, h5⟩ := ih { st with tif_files := tf } hrest
    refine ⟨st', ?_, h2, h3, h4, h5⟩
    show (processKey fetch st k >>= fun s => rest.foldlM (processKey fetch) s)
      = Except.ok st'
    rw [htf]
    exact h1

/-- C1 witness: a run whose single listing key is already done leaves the
inventory, archive and download record unchanged. -/
theorem C1_witness :
    (∀ k ∈ (["a.tif"] : List String),
        k ∈ (⟨[], ["a.tif"], [("a.tif", rowEmpty)], [("a_metadata.txt", [])],
             []⟩ : BatchState).tif_files_done) ∧
    ∃ st', run_batch fetchEmptyTif ["a.tif"]
        ⟨[], ["a.tif"], [("a.tif", rowEmpty)], [("a_metadata.txt", [])], []⟩
        = Except.ok st' ∧
      st'.tif_files_done = ["a.tif"] ∧
      st'.inventory = [("a.tif", rowEmpty)] ∧
      st'.archive = [("a_metadata.txt", [])] ∧
      st'.downloads = [] :=
  ⟨by decide,
    C1_amended_done_labels_skipped fetchEmptyTif ["a.tif"]
      ⟨[], ["a.tif"], [("a.tif", rowEmpty)], [("a_metadata.txt", [])], []⟩
      (by decide)⟩

/-- fetchBadThenGood is a bucket in which the key a.tif holds a container
whose descriptor has one retained line without an equals sign, and every
other key holds a container with one empty page. -/
def fetchBadThenGood : String → List (List Tag) := fun k =>
  if k = "a.tif" then [[⟨"image_description", TagValue.bytes "x\n"⟩]]
  else [[]]

/-- C2 counterexample: with a listing of two processable keys whose first
container has a descriptor line without an equals sign, the batch loop
does not continue to the second key: it aborts with the descriptor
error, because the loop body has no exception handler. -/
theorem C2_batch_abort_counterexample :
    run_batch fetchBadThenGood ["a.tif", "b.tif"] initialState
      = Except.error PyError.malformedDescriptor := rfl

/-- C2 amended: a retained descriptor line without an equals sign makes
the processing of that image fail with the malformed-descriptor error,
and, the loop body having no per-image recovery, the error aborts the
whole remaining batch whatever keys follow. -/
theorem C2_amended_malformed_descriptor_aborts
    (fetch : String → List (List Tag)) (st : BatchState) (key : String)
    (rest : List String)
    (h1 : excludedKey key = false) (h2 : strEndsWith key "tif" = true)
    (h3 : key ∉ st.tif_files_done)
    (h4 : fetch key = [[⟨"image_description", TagValue.bytes "x\n"⟩]]) :
    run_batch fetch (key :: rest) st
      = Except.error PyError.malformedDescriptor := by
  have hpt : process_tif (fetch key) key
      = Except.error PyError.malformedDescriptor := by
    rw [h4]
    rfl
  have hkey : processKey fetch st key
      = Except.error PyError.malformedDescriptor := by
    unfold processKey
    rw [if_neg (by simp [h1]), if_pos h2, if_neg h3, hpt]
    rfl
  show (processKey fetch st key >>= fun s => rest.foldlM (processKey fetch) s)
    = Except.error PyError.malformedDescriptor
  rw [hkey]
  rfl

/-- C2 witness: the abort evaluated on a concrete two-key listing. -/
theorem C2_witness :
    excludedKey "a.tif" = false ∧
    strEndsWith "a.tif" "tif" = true ∧
    "a.tif" ∉ initialState.tif_files_done ∧
    run_batch fetchBadThenGood ["a.tif", "b.tif"] initialState
      = Except.error PyError.malformedDescriptor :=
  ⟨by decide, by decide, by decide,
    C2_amended_malformed_descriptor_aborts fetchBadThenGood initialState
      "a.tif" ["b.tif"] (by decide) (by decide) (by decide) rfl⟩

/-- C7: a key that matches an exclusion pattern or lacks the tif suffix
is skipped with no side effect at all: the state after the per-key step
is exactly the state before it, so nothing is staged for download and
nothing is recorded in the inventory or the archive. -/
theorem C7_filtered_key_no_side_effect (fetch : String → List (List Tag))
    (st : BatchState) (key : String)
    (h : excludedKey key = true ∨ strEndsWith key "tif" = false) :
    processKey fetch st key = Except.ok st := by
  unfold processKey
  rcases h with h | h
  · rw [if_pos h]
    rfl
  · by_cases h1 : excludedKey key = true
    · rw [if_pos h1]
      rfl
    · rw [if_neg h1, if_neg (by simp [h])]
      rfl

/-- C7 witness: an excluded key and a wrong-suffix key both leave the
state untouched. -/
theorem C7_witness :
    (excludedKey "Lepto_fovea/x.tif" = true ∨
      strEndsWith "Lepto_fovea/x.tif" "tif" = false) ∧
    processKey fetchEmptyTif initialState "Lepto_fovea/x.tif"
      = Except.ok initialState :=
  ⟨Or.inl (by decide),
    C7_filtered_key_no_side_effect fetchEmptyTif initialState
      "Lepto_fovea/x.tif" (Or.inl (by decide))⟩

/-- C8 counterexample: the merge is a plain dictionary assignment in
encounter order, so a directory tag named channels encountered after the
descriptor overwrites the descriptor-expanded integer with the display
string of the tag value: the record does not hold the descriptor value. -/
theorem C8_order_counterexample :
    read_metadata
        [[⟨"image_description", TagValue.bytes "channels=2\n"⟩,
          ⟨"channels", TagValue.num 7⟩]]
      = Except.ok [("channels", Value.str "7")] ∧
    Value.str "7" ≠ Value.int 2 :=
  ⟨rfl, by decide⟩

/-- C8 amended: the merge of descriptor fields and directory tags is
last-write-wins in encounter order: a descriptor-expanded key overwrites
a same-named directory tag encountered before the descriptor, and in
general the latest dictionary assignment to a key is the one the record
holds. -/
theorem C8_amended_last_write_wins (n : Int) :
    read_metadata
        [[⟨"channels", TagValue.num n⟩,
          ⟨"image_description", TagValue.bytes "channels=2\n"⟩]]
      = Except.ok [("channels", Value.int 2)] ∧
    ∀ (d : Record) (k : String) (v : Value),
      dlookup (dinsert d k v) k = some v :=
  ⟨rfl, fun d k v => dlookup_dinsert_self d k v⟩

/-- spec_archive_name follows the wording of the specification for the
archive entry name: the last path segment of the label with its extension
stripped, the extension being the part after the last dot, and the
suffix appended. Declared only to compare the specification wording with
metadata_filename, which the notebook code defines. -/
def spec_archive_name (label : String) : String :=
  let seg := (strSplit label '/').getLastD ""
  let parts := strSplit seg '.'
  (if parts.length ≤ 1 then seg else String.intercalate "." parts.dropLast)
    ++ "_metadata.txt"

/-- C9 counterexample: on a label whose file name holds two dots the code
cuts at the first dot, while stripping the extension would cut at the
last dot, so the derived entry name differs from the claimed one. -/
theorem C9_first_dot_counterexample :
    metadata_filename "d/b.c.tif" = "b_metadata.txt" ∧
    spec_archive_name "d/b.c.tif" = "b.c_metadata.txt" ∧
    metadata_filename "d/b.c.tif" ≠ spec_archive_name "d/b.c.tif" :=
  ⟨rfl, rfl, by decide⟩

/-- C9 amended: for every label, the archive entry name is derived
deterministically as the last path segment of the label truncated at its
first dot, with the suffix appended, and the entry holds the full
metadata record exactly as read. -/
theorem C9_amended_archive_name_and_content (pages : List (List Tag))
    (label : String) (d : Record) (h : read_metadata pages = Except.ok d) :
    process_tif pages label
      = Except.ok ⟨metadata_filename label, d, process_tif_row d⟩ := by
  unfold process_tif
  rw [h]
  rfl

/-- C9 witness: the archive naming and content evaluated on a container
with one empty page and a two-segment label. -/
theorem C9_witness :
    read_metadata [[]] = Except.ok [] ∧
    process_tif [[]] "x/a.tif"
      = Except.ok ⟨"a_metadata.txt", [], rowEmpty⟩ :=
  ⟨rfl, C9_amended_archive_name_and_content [[]] "x/a.tif" [] rfl⟩
